import Mathlib

/-!
Verification of the logging-proxy reverse proxy (github.com/mrexodia/logging-proxy).

The repository contains several iterations of the proxy.  The development below
gives a shallow embedding of the functions the specification talks about:

* `Server.*`    — the legacy map-based proxy in `server.go`
  (`findMatchingRoute`, `transformPath`, `handleRequest`, `proxyWithDuplex`,
  `streamToLoggingServer`, `NewProxyServer`);
* `Logging.*`   — the mux-based proxy in `logging.go`
  (`setupPatterns`, `handlePatternRequest`, `handleUnknownRoute`,
  `logUnknownRoute`, `proxyWithDuplex`, `streamToLoggingServer`);
* `FileLogger.*`— the file sink in `file_logger.go` (`writeHTTPStream`).

Strings are modelled as `List Char` (`Str`), Go's `strings` package helpers are
modelled one-to-one, and the byte-stream plumbing (`io.TeeReader`,
`io.MultiWriter`, `io.Pipe`) is modelled at chunk granularity with the
documented semantics of those Go standard-library primitives.
-/

/-- Strings, modelled as lists of characters. -/
abbrev Str := List Char

/-- Coerce a Lean string literal to the `Str` model. -/
def str (s : String) : Str := s.data

/-- Model of Go `strings.HasPrefix s pre`. -/
def goStartsWith (s pre : Str) : Bool := pre.isPrefixOf s

/-- Model of Go `strings.HasSuffix s suf`. -/
def goEndsWith (s suf : Str) : Bool := suf.isSuffixOf s

/-- Model of Go `strings.TrimSuffix s suf`: drop one trailing copy of `suf`. -/
def goTrimSuffix (s suf : Str) : Str :=
  if goEndsWith s suf then s.take (s.length - suf.length) else s

/-- Model of Go `strings.TrimPrefix s pre`: drop one leading copy of `pre`. -/
def goTrimPfx (s pre : Str) : Str :=
  if goStartsWith s pre then s.drop pre.length else s

/-- Model of Go `strings.ToLower` (ASCII case folding suffices here). -/
def goToLower (s : Str) : Str := s.map Char.toLower

/-- Model of Go `strings.Contains s sub`: some tail of `s` starts with `sub`. -/
def goContains : Str → Str → Bool
  | [], sub => sub.isEmpty
  | c :: t, sub => sub.isPrefixOf (c :: t) || goContains t sub

theorem goStartsWith_iff (s pre : Str) : goStartsWith s pre = true ↔ pre <+: s := by
  simp [goStartsWith, List.isPrefixOf_iff_prefix]

theorem goStartsWith_refl (s : Str) : goStartsWith s s = true := by
  simp [goStartsWith_iff]

theorem goStartsWith_append (p rest : Str) : goStartsWith (p ++ rest) p = true := by
  simp [goStartsWith_iff]

/-!
## Byte-stream plumbing

`proxyWithDuplex` (identical in `server.go:202-291` and `logging.go:251-340`)
moves bodies as a sequence of read/write chunks.  We model a body as a list of
chunks and the three `io` primitives it uses with their documented semantics:

* `io.TeeReader(r, w)` — every `Read` that returns a chunk first writes that
  same chunk to `w`, unmodified;
* `io.MultiWriter(w1, w2)` — every `Write` duplicates the chunk to each
  destination in order, unmodified;
* `io.Pipe()` — a synchronous, unbuffered, in-memory pipe: each `Write` blocks
  until a reader has consumed the data (or the read side is closed).
-/

/-- One `Read` through `io.TeeReader(body, logPipeWriter)`:
`(chunk handed to the consumer, chunk written to the log pipe)`. -/
def teeReaderRead (chunk : Str) : Str × Str := (chunk, chunk)

/-- One `Write` through `io.MultiWriter(w, logPipeWriter)`:
`(chunk written to the client, chunk written to the log pipe)`. -/
def multiWriterWrite (chunk : Str) : Str × Str := (chunk, chunk)

/-- `io.Pipe` holds no internal buffer: its capacity between writer and reader
is zero bytes. -/
def ioPipeCapacity : Nat := 0

namespace Logging

/-- Request-body chunks forwarded to the backend by `proxyWithDuplex`
(`logging.go:274-302`): with logging the body is read through
`io.TeeReader(originalReq.Body, logPipeWriter)`, without logging it is the
original body untouched. -/
def proxyWireRequestChunks (shouldLog : Bool) (body : List Str) : List Str :=
  if shouldLog then body.map (fun c => (teeReaderRead c).1) else body

/-- Request-body chunks that reach the logging tap (the second leg of the tee);
empty when logging is disabled (no tee is installed). -/
def proxyLoggedRequestChunks (shouldLog : Bool) (body : List Str) : List Str :=
  if shouldLog then body.map (fun c => (teeReaderRead c).2) else []

/-- Response-body chunks written to the client by `proxyWithDuplex`
(`logging.go:320-337`): with logging, `io.Copy(io.MultiWriter(w, logPipeWriter),
resp.Body)`; without logging, `io.Copy(w, resp.Body)`. -/
def proxyClientResponseChunks (shouldLog : Bool) (respBody : List Str) : List Str :=
  if shouldLog then respBody.map (fun c => (multiWriterWrite c).1) else respBody

/-- Response-body chunks that reach the logging tap. -/
def proxyLoggedResponseChunks (shouldLog : Bool) (respBody : List Str) : List Str :=
  if shouldLog then respBody.map (fun c => (multiWriterWrite c).2) else []

end Logging

/-- Chunks the client actually receives when the copy loop feeds a synchronous
unbuffered pipe (`io.Pipe`) whose reader consumes only `sinkReads` chunks and
then stalls.  `io.MultiWriter` writes each chunk to the client first and to the
pipe second, so the write of the first unconsumed chunk blocks the loop after
that chunk reached the client. -/
def syncPipeDelivered : Nat → List Str → List Str
  | _, [] => []
  | 0, c :: _ => [c]
  | k + 1, c :: rest => c :: syncPipeDelivered k rest

theorem syncPipeDelivered_length (k : Nat) (chunks : List Str) :
    (syncPipeDelivered k chunks).length = min (k + 1) chunks.length := by
  induction chunks generalizing k with
  | nil => simp [syncPipeDelivered]
  | cons c rest ih =>
    cases k with
    | zero => simp [syncPipeDelivered]
    | succ k => simp [syncPipeDelivered, ih k, Nat.succ_min_succ]

/-!
## Raw log messages

`streamToLoggingServer` (`logging.go:354-438`) reconstructs an HTTP/1.1-style
message — start line, headers, blank line, body — and sends it as the body of a
`PUT` to the logging server.  `writeHTTPStream` (`file_logger.go:83-166`)
writes the same shape to a file.  We model the message as its start line, the
emitted header pairs (in emission order) and the body bytes.
-/

def crlf : Str := str "\r\n"

/-- The subset of `*http.Request` fields the serializers read. -/
structure GoRequest where
  method : Str
  urlPath : Str
  rawQuery : Str
  proto : Str
  host : Str
  header : List (Str × List Str)
deriving DecidableEq

/-- The subset of `*http.Response` fields the serializers read. -/
structure GoResponse where
  proto : Str
  statusCode : Nat
  header : List (Str × List Str)
deriving DecidableEq

/-- A reconstructed raw log message. -/
structure RawLogMessage where
  startLine : Str
  headerPairs : List (Str × Str)
  body : Str
deriving DecidableEq

/-- Flat byte form of a raw log message: start line, header lines, blank line,
body — the exact `Fprintf` sequence of the serializers. -/
def RawLogMessage.text (m : RawLogMessage) : Str :=
  m.startLine ++ crlf
    ++ (m.headerPairs.map (fun p => p.1 ++ str ": " ++ p.2 ++ crlf)).flatten
    ++ crlf ++ m.body

/-- Header filter of `logging.go:379-387` and `file_logger.go:108-119`: a
header from the request is emitted unless its lower-cased name is `host`,
`content-length` or `transfer-encoding`. -/
def loggedHeaderKeep (name : Str) : Bool :=
  let lowerName := goToLower name
  lowerName ≠ str "host" && lowerName ≠ str "content-length"
    && lowerName ≠ str "transfer-encoding"

/-- `(name, value)` pairs emitted by the header loop, one per value, in order. -/
def emittedHeaderPairs (header : List (Str × List Str)) : List (Str × Str) :=
  header.foldr
    (fun nv acc =>
      (if loggedHeaderKeep nv.1 then nv.2.map (fun v => (nv.1, v)) else []) ++ acc)
    []

theorem mem_emittedHeaderPairs {header : List (Str × List Str)} {p : Str × Str}
    (hp : p ∈ emittedHeaderPairs header) :
    ∃ nv ∈ header, p.1 = nv.1 ∧ loggedHeaderKeep nv.1 = true := by
  induction header with
  | nil => simp [emittedHeaderPairs] at hp
  | cons nv rest ih =>
    simp only [emittedHeaderPairs, List.foldr_cons, List.mem_append] at hp
    rcases hp with hp | hp
    · by_cases hk : loggedHeaderKeep nv.1 = true
      · simp only [hk, if_pos] at hp
        rcases List.mem_map.mp hp with ⟨v, _, hv⟩
        exact ⟨nv, List.mem_cons_self .., by simp [← hv, hk]⟩
      · simp [hk] at hp
    · rcases ih hp with ⟨nv', hnv', h1, h2⟩
      exact ⟨nv', List.mem_cons_of_mem _ hnv', h1, h2⟩

namespace Logging

/-- Request-line target of `logging.go:365-368`: path, plus `?query` when the
raw query is nonempty. -/
def requestURI (req : GoRequest) : Str :=
  req.urlPath ++ (if req.rawQuery.length > 0 then str "?" ++ req.rawQuery else [])

/-- Raw log message built for a request by the goroutine in
`logging.go:363-392` (request line; `Host:` when `req.Host` is nonempty; every
request header whose lower-cased name is not `host`/`content-length`/
`transfer-encoding`; `X-Proxy-Path:` when `proxyPath` is nonempty; blank line;
then the body bytes copied verbatim from `reader`).  No decompression is
applied to the body and no `Content-Encoding` filtering is applied to the
headers. -/
def streamToLoggingServerRequestMessage (req : GoRequest) (proxyPath : Str)
    (bodyBytes : Str) : RawLogMessage :=
  ⟨req.method ++ str " " ++ requestURI req ++ str " " ++ req.proto,
    (if req.host.length > 0 then [(str "Host", req.host)] else [])
      ++ emittedHeaderPairs req.header
      ++ (if proxyPath.length > 0 then [(str "X-Proxy-Path", proxyPath)] else []),
    bodyBytes⟩

/-- Fragment of Go's `http.StatusText` table used by the code. -/
def httpStatusText (code : Nat) : Str :=
  if code = 200 then str "OK"
  else if code = 201 then str "Created"
  else if code = 404 then str "Not Found"
  else if code = 502 then str "Bad Gateway"
  else []

/-- Raw log message built for a response by the goroutine in
`logging.go:394-415`: status line, then every response header unfiltered, then
the body bytes verbatim. -/
def streamToLoggingServerResponseMessage (resp : GoResponse) (bodyBytes : Str) :
    RawLogMessage :=
  ⟨resp.proto ++ str " " ++ str (toString resp.statusCode) ++ str " "
      ++ httpStatusText resp.statusCode,
    resp.header.foldr (fun nv acc => nv.2.map (fun v => (nv.1, v)) ++ acc) [],
    bodyBytes⟩

end Logging

namespace FileLogger

/-- Raw log message written for a request by `writeHTTPStream`
(`file_logger.go:86-128` plus the body copy at lines 152-163): request line,
`Host:` when nonempty, request headers through the same
`host`/`content-length`/`transfer-encoding` filter, `X-Proxy-Path:` when
nonempty, blank line, body copied verbatim.  As in the push sink, the body is
not decompressed and `Content-Encoding` is not filtered. -/
def writeHTTPStreamRequestMessage (request : GoRequest) (proxyPath : Str)
    (bodyBytes : Str) : RawLogMessage :=
  ⟨request.method ++ str " " ++ Logging.requestURI request ++ str " " ++ request.proto,
    (if request.host.length > 0 then [(str "Host", request.host)] else [])
      ++ emittedHeaderPairs request.header
      ++ (if proxyPath.length > 0 then [(str "X-Proxy-Path", proxyPath)] else []),
    bodyBytes⟩

end FileLogger

/-!
## Push to the logging server, proxy-failure branch, unmatched routes
-/

/-- A client-visible HTTP response (status and body bytes). -/
structure ClientResponse where
  status : Nat
  body : Str
deriving DecidableEq

/-- Model of Go `http.Error(w, msg, code)`: sets the status and writes
`msg` followed by a newline. -/
def httpError (msg : Str) (code : Nat) : ClientResponse :=
  ⟨code, msg ++ str "\n"⟩

namespace Logging

/-- The `PUT` request assembled in `logging.go:418-426` (identically in
`server.go:382-390`): URL `{serverURL}/{requestID}/{streamType}`, method
`PUT`, header `Content-Type: application/octet-stream`. -/
structure LogPushRequest where
  method : Str
  url : Str
  contentType : Str
deriving DecidableEq

def mkLogPushRequest (serverURL requestID streamType : Str) : LogPushRequest :=
  ⟨str "PUT", serverURL ++ str "/" ++ requestID ++ str "/" ++ streamType,
    str "application/octet-stream"⟩

/-- Outcome of `s.loggingClient.Do(logReq)`: a transport error, or a response
with a status code. -/
inductive LogPushResult
  | transportError
  | status (code : Nat)
deriving DecidableEq

/-- Whether `streamToLoggingServer` records a local warning for the outcome
(`logging.go:428-437`): every transport error warns and returns; a status
other than 200 or 201 warns.  Nothing else happens in either case. -/
def logPushWarns : LogPushResult → Bool
  | .transportError => true
  | .status code => !(code == 200 || code == 201)

/-- Whether the error handling of `streamToLoggingServer` drains or closes the
log pipe it was reading when the `PUT` fails: it does not — on a transport
error the function logs and returns (`logging.go:429-432`), leaving `reader`
(the tee's pipe) without a consumer. -/
def logPushDrainsPipeOnFailure : Bool := false

/-- Everything `streamToLoggingServer` hands back to the proxying code path:
nothing.  It is spawned with `go`, returns no value, and is never passed the
client's `ResponseWriter`, so the push outcome can contribute no data to the
client-visible response. -/
def logPushClientData : LogPushResult → Option ClientResponse := fun _ => none

/-- Client response bytes paired with the push-outcome warning, reflecting
that the response copy loop (`logging.go:320-337`) and the warning handling
(`logging.go:428-437`) exchange no data. -/
def proxyAndPushOutcome (shouldLog : Bool) (respBody : List Str)
    (outcome : LogPushResult) : List Str × Bool :=
  (proxyClientResponseChunks shouldLog respBody, logPushWarns outcome)

end Logging

namespace Logging

/-- Body written by the non-logged 404 branch
(`http.Error(w, "custom 404 page", http.StatusNotFound)`, `logging.go:217`). -/
def unknownRouteNonLoggedBody : Str := str "custom 404 page" ++ str "\n"

/-- Body used by `logUnknownRoute` (`logging.go:234`) both for the logged
synthesized response and for the bytes written to the client. -/
def unknownRouteLoggedBody : Str := str "404 page not found\n"

/-- One push spawned by `logUnknownRoute`: its stream type and message. -/
structure UnknownRoutePush where
  streamType : Str
  message : RawLogMessage
deriving DecidableEq

/-- `logUnknownRoute` (`logging.go:222-248`): spawns a request push from the
inbound request, writes status 404, builds a fake response with proto
`HTTP/1.1`, status 404 and the writer's headers, spawns a response push with
body `"404 page not found\n"`, and writes that same body to the client. -/
def logUnknownRoute (req : GoRequest) (proxyPath : Str) (reqBody : Str)
    (wHeader : List (Str × List Str)) : ClientResponse × List UnknownRoutePush :=
  (⟨404, unknownRouteLoggedBody⟩,
    [⟨str "request", streamToLoggingServerRequestMessage req proxyPath reqBody⟩,
     ⟨str "response",
       streamToLoggingServerResponseMessage ⟨str "HTTP/1.1", 404, wHeader⟩
         unknownRouteLoggedBody⟩])

/-- `handleUnknownRoute` (`logging.go:195-219`): with default logging enabled
it defers to `logUnknownRoute`; otherwise it writes the bare
`custom 404 page` error and pushes nothing. -/
def handleUnknownRoute (defaultLogging : Bool) (req : GoRequest) (proxyPath : Str)
    (reqBody : Str) (wHeader : List (Str × List Str)) :
    ClientResponse × List UnknownRoutePush :=
  if defaultLogging then logUnknownRoute req proxyPath reqBody wHeader
  else (httpError (str "custom 404 page") 404, [])

/-- Error branch of `handlePatternRequest` (`logging.go:187-191`, identical in
`server.go:165-169`): when `proxyWithDuplex` fails the handler logs
`Proxy error for {requestID}: {err}` locally and answers the client with
`http.Error(w, "Proxy error", http.StatusBadGateway)`.  Returns
`(client response, local log line)`. -/
def handleProxyFailure (requestID errText : Str) : ClientResponse × Str :=
  (httpError (str "Proxy error") 502,
    str "Proxy error for " ++ requestID ++ str ": " ++ errText)

/-- `proxyWithDuplex` calls `client.Do(proxyReq)` exactly once
(`logging.go:305-309`); there is no retry loop. -/
def proxyUpstreamAttempts : Nat := 1

end Logging

/-!
## Legacy router (`server.go`)

`ProxyServer.Routes` is a Go map keyed by `route.Source`; we model it as an
association list in some iteration order (Go map iteration order is
unspecified, so theorems quantify over the list).
-/

namespace Server

/-- The `Route` struct of `server.go` / `unnamed/part_000`. -/
structure Route where
  source : Str
  destination : Str
  logging : Bool
deriving DecidableEq

/-- Loop body of `findMatchingRoute` (`server.go:42-48`): keep the route whose
trimmed source is a prefix of the path and strictly longer than the best so
far. -/
def findStep (path : Str) (acc : Option Route × Nat) (sr : Str × Route) :
    Option Route × Nat :=
  let trimmedSource := goTrimSuffix sr.1 (str "/")
  if goStartsWith path trimmedSource && trimmedSource.length > acc.2 then
    (some sr.2, trimmedSource.length)
  else acc

/-- `findMatchingRoute` (`server.go:38-51`): best match over the route table,
starting from `bestMatch = nil`, `bestLength = 0`. -/
def findMatchingRoute (routes : List (Str × Route)) (path : Str) : Option Route :=
  (routes.foldl (findStep path) (none, 0)).1

/-- `NewProxyServer` (`server.go:21-35`) inserts each configured route into the
`Routes` map keyed by its source; a later route with the same source replaces
the earlier entry.  `mapInsert` is Go map assignment on the association-list
model. -/
def mapInsert (m : List (Str × Route)) (k : Str) (v : Route) : List (Str × Route) :=
  if m.any (fun kv => kv.1 == k) then
    m.map (fun kv => if kv.1 == k then (k, v) else kv)
  else m ++ [(k, v)]

/-- The `Routes` table built by `NewProxyServer` from the configured routes (in
some map-iteration order).  The function is total: no duplicate check, no
error. -/
def newProxyServerRoutes (cfgRoutes : List Route) : List (Str × Route) :=
  cfgRoutes.foldl (fun m r => mapInsert m r.source r) []

end Server

/-!
## Mux router (`logging.go`)

`setupPatterns` (`logging.go:81-116`) rejects wildcard patterns, appends
`{path...}` to patterns ending in `/`, and registers each pattern with
`http.ServeMux.HandleFunc`.  For the resulting pattern class (Go 1.22 ServeMux,
no methods, no hosts, wildcard only as a trailing `{path...}`):

* `p ++ "{path...}"` (for `p` ending in `/`) matches exactly the paths having
  `p` as a prefix;
* a pattern without the wildcard matches exactly itself;
* registration panics when a pattern duplicates one already registered
  (`http.ServeMux.Handle` panics on conflicting patterns; for this class two
  patterns conflict exactly when they are equal).

Go panics are modelled with `Except Str`.
-/

namespace Logging

/-- `'{'`, written via its code point. -/
def obrace : Char := Char.ofNat 123

/-- `'}'`, written via its code point. -/
def cbrace : Char := Char.ofNat 125

/-- A character matched by the wildcard regex body `[a-zA-Z0-9_.]`. -/
def wildcardCharOk (c : Char) : Bool := c.isAlphanum || c == '_' || c == '.'

/-- Model of `wildcardRegex.MatchString` for the pattern `{[a-zA-Z0-9_.]+`
(`logging.go:82,89`): the string contains an opening brace followed by at
least one wildcard character. -/
def containsWildcard : Str → Bool
  | [] => false
  | c :: rest =>
    (c == obrace && (match rest with | [] => false | d :: _ => wildcardCharOk d))
      || containsWildcard rest

/-- The `{path...}` suffix appended to patterns ending in `/`
(`logging.go:99-101`). -/
def pathWildcard : Str := [obrace] ++ str "path..." ++ [cbrace]

/-- Registered form of a route pattern (`logging.go:99-101`). -/
def muxPatternOf (pattern : Str) : Str :=
  if goEndsWith pattern (str "/") then pattern ++ pathWildcard else pattern

/-- One `mux.HandleFunc` registration: Go's `ServeMux.Handle` panics when the
pattern conflicts with an already registered one; for this wildcard-free /
trailing-wildcard class, conflict is pattern equality. -/
def muxRegister (registered : List Str) (pattern : Str) : Except Str (List Str) :=
  if pattern ∈ registered then Except.error (str "conflicting pattern")
  else Except.ok (registered ++ [pattern])

/-- The registration loop of `setupPatterns` (`logging.go:85-106`), starting
from an already-registered pattern set: panic on a wildcard pattern, then
register the transformed pattern. -/
def setupPatternsFrom (registered : List Str) : List Str → Except Str (List Str)
  | [] => Except.ok registered
  | pattern :: rest =>
    if containsWildcard pattern then
      Except.error (str "Pattern contains a wildcard, which is not supported")
    else match muxRegister registered (muxPatternOf pattern) with
      | .error e => .error e
      | .ok regs => setupPatternsFrom regs rest

/-- The registration part of `setupPatterns` over the configured patterns (in
some map-iteration order), starting from an empty mux. -/
def setupPatternsRegs (patterns : List Str) : Except Str (List Str) :=
  setupPatternsFrom [] patterns

/-- Semantic view of a registered pattern: a subtree pattern
`p ++ "{path...}"` (from `p` ending in `/`) or an exact pattern. -/
inductive MuxPattern
  | subtree (p : Str)
  | exact (p : Str)
deriving DecidableEq

/-- Semantic form of a route pattern, mirroring `muxPatternOf`. -/
def muxPatternSem (pattern : Str) : MuxPattern :=
  if goEndsWith pattern (str "/") then .subtree pattern else .exact pattern

/-- Go 1.22 `ServeMux` matching for this class: `p ++ "{path...}"` matches the
paths with prefix `p` (the `{path...}` segment may be empty); a literal
pattern matches only itself. -/
def muxMatches (mp : MuxPattern) (path : Str) : Bool :=
  match mp with
  | .subtree p => goStartsWith path p
  | .exact p => path == p

/-- Specificity rank used by `ServeMux` precedence on this class: an exact
pattern is more specific than any subtree pattern that also matches, and a
longer subtree root is more specific than a shorter one. -/
def muxRank (mp : MuxPattern) : Nat :=
  match mp with
  | .subtree p => 2 * p.length
  | .exact p => 2 * p.length + 1

/-- One step of `ServeMux` resolution: keep the more specific of the current
best pattern and the next matching pattern. -/
def muxStep (path : Str) (acc : Option MuxPattern) (mp : MuxPattern) :
    Option MuxPattern :=
  if muxMatches mp path then
    match acc with
    | none => some mp
    | some best => if muxRank mp > muxRank best then some mp else acc
  else acc

/-- `ServeMux` resolution on this class: among registered patterns matching
the path, the most specific (highest rank) wins. -/
def muxResolve (patterns : List MuxPattern) (path : Str) : Option MuxPattern :=
  patterns.foldl (muxStep path) none

end Logging

/-!
## Destination-URL construction

`server.go` parses the destination with `net/url.Parse`, rewrites the path via
`transformPath` and re-serializes; `logging.go` joins the captured `{path...}`
remainder onto the destination with `url.JoinPath` and appends the query
itself.  `goParseURL`/`goURLString`/`goJoinPath` model the `net/url` functions
for absolute URLs without user info, fragment or embedded query, and without
dot segments or duplicate slashes (where `path.Clean` inside `JoinPath` is the
identity).
-/

/-- Parsed form of an absolute URL `scheme://host[/path]`. -/
structure GoURL where
  scheme : Str
  host : Str
  path : Str
  rawQuery : Str
deriving DecidableEq

/-- Split a string at the first occurrence of a separator. -/
def splitOnFirst (sep : Str) : Str → Option (Str × Str)
  | [] => if sep.isEmpty then some ([], []) else none
  | c :: t =>
    if sep.isPrefixOf (c :: t) then some ([], (c :: t).drop sep.length)
    else match splitOnFirst sep t with
      | some (l, r) => some (c :: l, r)
      | none => none

/-- Model of `net/url.Parse` for `scheme://host[/path]` inputs (no query,
fragment or user info): everything before `://` is the scheme, the host runs to
the first `/`, the rest (including that `/`) is the path. -/
def goParseURL (s : Str) : Option GoURL :=
  match splitOnFirst (str "://") s with
  | none => none
  | some (scheme, rest) =>
    match splitOnFirst (str "/") rest with
    | none => some ⟨scheme, rest, [], []⟩
    | some (host, afterHost) => some ⟨scheme, host, str "/" ++ afterHost, []⟩

/-- Model of `(*url.URL).String()` for this fragment: scheme, host, path, and
`?query` only when the raw query is nonempty. -/
def goURLString (u : GoURL) : Str :=
  u.scheme ++ str "://" ++ u.host ++ u.path
    ++ (if u.rawQuery.length > 0 then str "?" ++ u.rawQuery else [])

/-- Model of `url.JoinPath(base, elem)` for a base URL ending in at most one
`/`, and an element with no leading `/` and no dot segments: the element is
appended to the base behind a single `/`. -/
def goJoinPath (base elem : Str) : Str :=
  goTrimSuffix base (str "/") ++ str "/" ++ elem

namespace Server

/-- `transformPath` (`server.go:54-69`). -/
def transformPath (originalPath sourcePath destinationURL : Str) : Option Str :=
  let sourceTrimmed := goTrimSuffix sourcePath (str "/")
  let remainingPath := goTrimPfx originalPath sourceTrimmed
  match goParseURL destinationURL with
  | none => none
  | some destURL =>
    let destPath := goTrimSuffix destURL.path (str "/")
    if destPath = [] ∨ destPath = str "/" then some remainingPath
    else some (destPath ++ remainingPath)

/-- Target URL built by `handleRequest` (`server.go:146-162`): parse the
destination, replace its path with `transformPath`'s result, set the raw query
to the inbound query, and serialize. -/
def buildTargetURL (originalPath sourcePath destinationURL rawQuery : Str) :
    Option Str :=
  match transformPath originalPath sourcePath destinationURL with
  | none => none
  | some targetPath =>
    match goParseURL destinationURL with
    | none => none
    | some destURL =>
      some (goURLString ⟨destURL.scheme, destURL.host, targetPath, rawQuery⟩)

end Server

namespace Logging

/-- The `{path...}` capture for a prefix pattern `p` (ending in `/`) on a
request path that extends `p`: `r.PathValue("path")` is the remainder after
the pattern. -/
def muxPathValue (pattern path : Str) : Str := goTrimPfx path pattern

/-- Destination URL built by `handlePatternRequest` (`logging.go:147-162`):
start from the route destination; when the captured path remainder is
nonempty, `url.JoinPath` it onto the destination; when the inbound raw query
is nonempty, append `?` and the query verbatim. -/
def handlePatternRequestDestURL (destination pathValue rawQuery : Str) : Str :=
  let destinationUrl := if pathValue.length > 0
    then goJoinPath destination pathValue else destination
  if rawQuery.length > 0 then destinationUrl ++ str "?" ++ rawQuery
  else destinationUrl

end Logging


/-!
## Helper lemmas about the routers
-/

namespace Server

theorem findFold_spec (path : Str) (rs : List (Str × Route)) :
    ∀ acc : Option Route × Nat,
    (rs.foldl (findStep path) acc = acc
      ∨ ∃ sp r, (sp, r) ∈ rs
          ∧ rs.foldl (findStep path) acc
              = (some r, (goTrimSuffix sp (str "/")).length)
          ∧ goStartsWith path (goTrimSuffix sp (str "/")) = true
          ∧ acc.2 < (goTrimSuffix sp (str "/")).length)
    ∧ acc.2 ≤ (rs.foldl (findStep path) acc).2
    ∧ (∀ sr ∈ rs, goStartsWith path (goTrimSuffix sr.1 (str "/")) = true →
        (goTrimSuffix sr.1 (str "/")).length ≤ (rs.foldl (findStep path) acc).2) := by
  induction rs with
  | nil => exact fun acc => ⟨Or.inl rfl, Nat.le_refl _, by simp⟩
  | cons sr rest ih =>
    intro acc
    have hfold : (sr :: rest).foldl (findStep path) acc
        = rest.foldl (findStep path) (findStep path acc sr) := List.foldl_cons ..
    obtain ⟨hor, hle, hmax⟩ := ih (findStep path acc sr)
    by_cases h : (goStartsWith path (goTrimSuffix sr.1 (str "/"))
        && decide ((goTrimSuffix sr.1 (str "/")).length > acc.2)) = true
    · have hmatch : goStartsWith path (goTrimSuffix sr.1 (str "/")) = true :=
        (Bool.and_eq_true .. ▸ h).1
      have hgt : acc.2 < (goTrimSuffix sr.1 (str "/")).length :=
        of_decide_eq_true (Bool.and_eq_true .. ▸ h).2
      have hstep : findStep path acc sr
          = (some sr.2, (goTrimSuffix sr.1 (str "/")).length) := by
        simp only [findStep, h, if_pos]
      rw [hstep] at hor hle hmax
      refine ⟨?_, ?_, ?_⟩
      · rw [hfold, hstep]
        rcases hor with hres | ⟨sp, r, hmem, hres, hm, hlt⟩
        · exact Or.inr ⟨sr.1, sr.2, List.mem_cons_self .., hres, hmatch, hgt⟩
        · exact Or.inr ⟨sp, r, List.mem_cons_of_mem _ hmem, hres, hm,
            Nat.lt_trans hgt hlt⟩
      · rw [hfold, hstep]
        exact Nat.le_trans (Nat.le_of_lt hgt) hle
      · intro sr' hsr' hm'
        rw [hfold, hstep]
        rcases List.mem_cons.mp hsr' with hh | ht
        · subst hh
          exact hle
        · exact hmax sr' ht hm'
    · have hstep : findStep path acc sr = acc := by
        simp only [findStep]
        rw [if_neg h]
      have hnm : goStartsWith path (goTrimSuffix sr.1 (str "/")) = true →
          (goTrimSuffix sr.1 (str "/")).length ≤ acc.2 := by
        intro hm
        by_contra hlt
        exact h (by simp [hm, Nat.lt_of_not_le hlt])
      rw [hstep] at hor hle hmax
      refine ⟨?_, ?_, ?_⟩
      · rw [hfold, hstep]
        rcases hor with hres | ⟨sp, r, hmem, hres, hm, hlt⟩
        · exact Or.inl hres
        · exact Or.inr ⟨sp, r, List.mem_cons_of_mem _ hmem, hres, hm, hlt⟩
      · rw [hfold, hstep]
        exact hle
      · intro sr' hsr' hm'
        rw [hfold, hstep]
        rcases List.mem_cons.mp hsr' with hh | ht
        · subst hh
          exact Nat.le_trans (hnm hm') hle
        · exact hmax sr' ht hm'

/-- Soundness, positivity and maximality of `findMatchingRoute`. -/
theorem findMatchingRoute_sound {routes : List (Str × Route)} {path : Str}
    {r : Route} (h : findMatchingRoute routes path = some r) :
    ∃ sp, (sp, r) ∈ routes
      ∧ goStartsWith path (goTrimSuffix sp (str "/")) = true
      ∧ 0 < (goTrimSuffix sp (str "/")).length
      ∧ ∀ sr ∈ routes, goStartsWith path (goTrimSuffix sr.1 (str "/")) = true →
          (goTrimSuffix sr.1 (str "/")).length ≤ (goTrimSuffix sp (str "/")).length := by
  obtain ⟨hor, _, hmax⟩ := findFold_spec path routes ((none : Option Route), 0)
  rcases hor with hres | ⟨sp, r', hmem, hres, hm, hlt⟩
  · rw [findMatchingRoute, hres] at h
    exact absurd h (by simp)
  · rw [findMatchingRoute, hres] at h
    have hr : r' = r := by simpa using h
    subst hr
    refine ⟨sp, hmem, hm, hlt, ?_⟩
    intro sr hsr hm'
    have := hmax sr hsr hm'
    rw [hres] at this
    exact this

end Server

namespace Logging

theorem muxFold_spec (path : Str) (ps : List MuxPattern) :
    ∀ acc : Option MuxPattern,
    (ps.foldl (muxStep path) acc = acc
      ∨ ∃ m ∈ ps, ps.foldl (muxStep path) acc = some m ∧ muxMatches m path = true)
    ∧ (∀ b, acc = some b →
        ∃ b', ps.foldl (muxStep path) acc = some b' ∧ muxRank b ≤ muxRank b')
    ∧ (∀ m' ∈ ps, muxMatches m' path = true →
        ∃ b', ps.foldl (muxStep path) acc = some b' ∧ muxRank m' ≤ muxRank b') := by
  induction ps with
  | nil =>
    exact fun acc => ⟨Or.inl rfl, fun b hb => ⟨b, hb, Nat.le_refl _⟩, by simp⟩
  | cons mp rest ih =>
    intro acc
    have hfold : (mp :: rest).foldl (muxStep path) acc
        = rest.foldl (muxStep path) (muxStep path acc mp) := List.foldl_cons ..
    obtain ⟨hor, hmono, hmax⟩ := ih (muxStep path acc mp)
    by_cases hm : muxMatches mp path = true
    · have hstep : ∃ b, muxStep path acc mp = some b ∧ muxRank mp ≤ muxRank b
          ∧ (some b = acc ∨ b = mp)
          ∧ (∀ c, acc = some c → muxRank c ≤ muxRank b) := by
        cases acc with
        | none =>
          exact ⟨mp, by simp [muxStep, hm], Nat.le_refl _, Or.inr rfl, by simp⟩
        | some best =>
          by_cases hr : muxRank mp > muxRank best
          · refine ⟨mp, by simp [muxStep, hm, hr], Nat.le_refl _, Or.inr rfl, ?_⟩
            intro c hc
            have : best = c := by simpa using hc
            exact this ▸ Nat.le_of_lt hr
          · refine ⟨best, by simp [muxStep, hm, hr], Nat.le_of_not_lt hr, Or.inl rfl, ?_⟩
            intro c hc
            have : best = c := by simpa using hc
            exact this ▸ Nat.le_refl _
      obtain ⟨b, hb, hrank, hborigin, hmonostep⟩ := hstep
      rw [hb] at hor hmono hmax
      refine ⟨?_, ?_, ?_⟩
      · rw [hfold, hb]
        rcases hor with hres | ⟨m, hmem, hres, hmm⟩
        · rcases hborigin with hacc | hbmp
          · rw [hres, hacc]
            exact Or.inl rfl
          · exact Or.inr ⟨mp, List.mem_cons_self .., hres.trans (by rw [hbmp]), hm⟩
        · exact Or.inr ⟨m, List.mem_cons_of_mem _ hmem, hres, hmm⟩
      · intro c hc
        rw [hfold, hb]
        obtain ⟨b', hb', hbb'⟩ := hmono b rfl
        exact ⟨b', hb', Nat.le_trans (hmonostep c hc) hbb'⟩
      · intro m' hm' hmm'
        rw [hfold, hb]
        rcases List.mem_cons.mp hm' with hh | ht
        · subst hh
          obtain ⟨b', hb', hbb'⟩ := hmono b rfl
          exact ⟨b', hb', Nat.le_trans hrank hbb'⟩
        · exact hmax m' ht hmm'
    · have hstep : muxStep path acc mp = acc := by
        simp only [muxStep]
        rw [if_neg hm]
      rw [hstep] at hor hmono hmax
      refine ⟨?_, ?_, ?_⟩
      · rw [hfold, hstep]
        rcases hor with hres | ⟨m, hmem, hres, hmm⟩
        · exact Or.inl hres
        · exact Or.inr ⟨m, List.mem_cons_of_mem _ hmem, hres, hmm⟩
      · intro c hc
        rw [hfold, hstep]
        exact hmono c hc
      · intro m' hm' hmm'
        rw [hfold, hstep]
        rcases List.mem_cons.mp hm' with hh | ht
        · subst hh
          exact absurd hmm' hm
        · exact hmax m' ht hmm'

/-- `muxResolve` returns a registered pattern that matches the path and has
maximal rank among the matching registered patterns. -/
theorem muxResolve_sound {ps : List MuxPattern} {path : Str} {m : MuxPattern}
    (h : muxResolve ps path = some m) :
    m ∈ ps ∧ muxMatches m path = true
      ∧ ∀ m' ∈ ps, muxMatches m' path = true → muxRank m' ≤ muxRank m := by
  obtain ⟨hor, _, hmax⟩ := muxFold_spec path ps none
  rcases hor with hres | ⟨m'', hmem, hres, hmm⟩
  · rw [muxResolve, hres] at h
    exact absurd h (by simp)
  · rw [muxResolve, hres] at h
    have hm : m'' = m := by simpa using h
    subst hm
    refine ⟨hmem, hmm, ?_⟩
    intro m' hm' hmm'
    obtain ⟨b', hb', hrank⟩ := hmax m' hm' hmm'
    rw [hres] at hb'
    have hb'' : m'' = b' := by simpa using hb'
    exact hb'' ▸ hrank

/-- A maximal-rank matching pattern matches a subset of the paths matched by
any other pattern that also matches the same path. -/
theorem muxMoreSpecific {m m' : MuxPattern} {path : Str}
    (hm : muxMatches m path = true) (hm' : muxMatches m' path = true)
    (hrank : muxRank m' ≤ muxRank m) :
    ∀ q, muxMatches m q = true → muxMatches m' q = true := by
  intro q hq
  cases m with
  | exact p =>
    have hp : path = p := by simpa [muxMatches] using hm
    have hqp : q = p := by simpa [muxMatches] using hq
    rw [hqp, ← hp]
    exact hm'
  | subtree p =>
    have hp : p <+: path := (goStartsWith_iff ..).mp hm
    have hq' : p <+: q := (goStartsWith_iff ..).mp hq
    cases m' with
    | exact p' =>
      have hp' : path = p' := by simpa [muxMatches] using hm'
      have hlen : p.length ≤ path.length := hp.length_le
      have hr2 : 2 * p'.length + 1 ≤ 2 * p.length := by
        simpa [muxRank] using hrank
      rw [hp'] at hlen
      have hfalse : False := by omega
      exact hfalse.elim
    | subtree q' =>
      have hpq' : q' <+: path := (goStartsWith_iff ..).mp hm'
      have hlen : q'.length ≤ p.length := by
        simpa [muxRank] using hrank
      have hq'p : q' <+: p := List.prefix_of_prefix_length_le hpq' hp hlen
      exact (goStartsWith_iff ..).mpr (hq'p.trans hq')

end Logging

namespace Server

theorem lookup_map_overwrite (k : Str) (v : Route) :
    ∀ m : List (Str × Route), m.any (fun kv => kv.1 == k) = true →
      List.lookup k (m.map (fun kv => if kv.1 == k then (k, v) else kv)) = some v := by
  intro m
  induction m with
  | nil => simp
  | cons kv rest ih =>
    intro hany
    by_cases hk : (kv.1 == k) = true
    · rw [List.map_cons, if_pos hk, List.lookup]
      simp
    · have hk' : (kv.1 == k) = false := Bool.not_eq_true _ ▸ hk
      have hrest : rest.any (fun kv => kv.1 == k) = true := by
        simp only [List.any_cons] at hany
        rw [hk', Bool.false_or] at hany
        exact hany
      have hne : (k == kv.1) = false := by
        simp only [beq_eq_false_iff_ne] at hk' ⊢
        exact fun he => hk' he.symm
      rw [List.map_cons, if_neg hk, List.lookup]
      simp only [hne]
      exact ih hrest

theorem lookup_append_fresh (k : Str) (v : Route) :
    ∀ m : List (Str × Route), m.any (fun kv => kv.1 == k) = false →
      List.lookup k (m ++ [(k, v)]) = some v := by
  intro m
  induction m with
  | nil => simp [List.lookup]
  | cons kv rest ih =>
    intro hany
    rw [List.any_cons, Bool.or_eq_false_iff] at hany
    have hne : (k == kv.1) = false := by
      have hk' := hany.1
      simp only [beq_eq_false_iff_ne] at hk' ⊢
      exact fun he => hk' he.symm
    rw [List.cons_append, List.lookup]
    simp only [hne]
    exact ih hany.2

/-- Go map assignment: after `m[k] = v`, looking up `k` yields `v` — whether or
not the key was already present. -/
theorem mapInsert_lookup (m : List (Str × Route)) (k : Str) (v : Route) :
    List.lookup k (mapInsert m k v) = some v := by
  rw [mapInsert]
  by_cases hany : m.any (fun kv => kv.1 == k) = true
  · rw [if_pos hany]
    exact lookup_map_overwrite k v m hany
  · rw [if_neg hany]
    exact lookup_append_fresh k v m (Bool.not_eq_true _ ▸ hany)

/-- The `Routes` table after registering `rs` and then `r`: the entry for
`r.source` is `r`, regardless of whether an earlier route used the same
source — the later registration silently replaces the earlier one. -/
theorem newProxyServerRoutes_last (rs : List Route) (r : Route) :
    List.lookup r.source (newProxyServerRoutes (rs ++ [r])) = some r := by
  rw [newProxyServerRoutes, List.foldl_append]
  exact mapInsert_lookup _ r.source r

end Server

namespace Logging

theorem setupPatternsFrom_ok_iff (patterns : List Str) :
    ∀ registered : List Str,
    (∃ regs, setupPatternsFrom registered patterns = Except.ok regs)
      ↔ ((∀ p ∈ patterns, containsWildcard p = false)
          ∧ (∀ p ∈ patterns, muxPatternOf p ∉ registered)
          ∧ (patterns.map muxPatternOf).Nodup) := by
  induction patterns with
  | nil => simp [setupPatternsFrom]
  | cons pattern rest ih =>
    intro registered
    by_cases hw : containsWildcard pattern = true
    · constructor
      · intro ⟨regs, hregs⟩
        rw [setupPatternsFrom, if_pos hw] at hregs
        exact absurd hregs (by simp)
      · intro ⟨hwf, _, _⟩
        exact absurd (hwf pattern (List.mem_cons_self ..)) (by simp [hw])
    · by_cases hdup : muxPatternOf pattern ∈ registered
      · constructor
        · intro ⟨regs, hregs⟩
          rw [setupPatternsFrom, if_neg hw] at hregs
          rw [muxRegister, if_pos hdup] at hregs
          exact absurd hregs (by simp)
        · intro ⟨_, hfresh, _⟩
          exact absurd hdup (hfresh pattern (List.mem_cons_self ..))
      · have hstep : setupPatternsFrom registered (pattern :: rest)
            = setupPatternsFrom (registered ++ [muxPatternOf pattern]) rest := by
          rw [setupPatternsFrom, if_neg hw, muxRegister, if_neg hdup]
        rw [hstep, ih (registered ++ [muxPatternOf pattern])]
        constructor
        · intro ⟨hwf, hfresh, hnd⟩
          refine ⟨?_, ?_, ?_⟩
          · intro p hp
            rcases List.mem_cons.mp hp with hh | ht
            · subst hh
              exact Bool.not_eq_true _ ▸ hw
            · exact hwf p ht
          · intro p hp
            rcases List.mem_cons.mp hp with hh | ht
            · subst hh
              exact hdup
            · intro hmem
              exact (hfresh p ht) (List.mem_append_left _ hmem)
          · rw [List.map_cons, List.nodup_cons]
            refine ⟨?_, hnd⟩
            intro hmem
            rcases List.mem_map.mp hmem with ⟨q, hq, hqeq⟩
            exact (hfresh q hq) (List.mem_append_right _ (by simp [hqeq]))
        · intro ⟨hwf, hfresh, hnd⟩
          rw [List.map_cons, List.nodup_cons] at hnd
          refine ⟨?_, ?_, hnd.2⟩
          · intro p hp
            exact hwf p (List.mem_cons_of_mem _ hp)
          · intro p hp hmem
            rcases List.mem_append.mp hmem with hl | hr
            · exact (hfresh p (List.mem_cons_of_mem _ hp)) hl
            · have : muxPatternOf p = muxPatternOf pattern := by simpa using hr
              exact hnd.1 (this ▸ List.mem_map_of_mem _ hp)
        
/-- Success of the registration part of `setupPatterns` is exactly
wildcard-freedom plus pairwise-distinct registered patterns. -/
theorem setupPatternsRegs_ok_iff (patterns : List Str) :
    (∃ regs, setupPatternsRegs patterns = Except.ok regs)
      ↔ ((∀ p ∈ patterns, containsWildcard p = false)
          ∧ (patterns.map muxPatternOf).Nodup) := by
  rw [setupPatternsRegs, setupPatternsFrom_ok_iff patterns []]
  simp

end Logging

/-!
## Claim theorems
-/

/-- C2: For every proxied request, the body bytes delivered to the backend
equal byte-for-byte the body bytes read from the client, the response body
bytes delivered to the client equal byte-for-byte those read from the backend,
and the wire byte stream is the same whether the route's logging is enabled or
disabled (`proxyWithDuplex`, `logging.go:273-302` and `logging.go:320-337`,
identical in `server.go`). -/
theorem c2_wire_bytes_unchanged (shouldLog : Bool) (reqBody respBody : List Str) :
    (Logging.proxyWireRequestChunks shouldLog reqBody).flatten = reqBody.flatten
    ∧ (Logging.proxyClientResponseChunks shouldLog respBody).flatten = respBody.flatten
    ∧ Logging.proxyWireRequestChunks true reqBody
        = Logging.proxyWireRequestChunks false reqBody
    ∧ Logging.proxyClientResponseChunks true respBody
        = Logging.proxyClientResponseChunks false respBody := by
  cases shouldLog <;>
    simp [Logging.proxyWireRequestChunks, Logging.proxyClientResponseChunks,
      teeReaderRead, multiWriterWrite]

/-- C3: the buffer between the tee point and the logging sink is `io.Pipe`,
which is synchronous and unbuffered (capacity zero), not a bounded
asynchronous buffer: when the logging sink stalls after consuming `k` chunks,
the client receives only `min (k+1) n` of the `n` response chunks — in
particular, with a fully stalled sink the client of a two-chunk response
receives one chunk and the proxied stream stalls, contradicting the claimed
independence of the client-facing stream from the logging sink
(`logging.go:281-299`, `logging.go:320-337`, `logging.go:355-360`). -/
theorem c3_sync_pipe_stalls_client :
    ioPipeCapacity = 0
    ∧ syncPipeDelivered 0 [str "data: chunk1\n\n", str "data: chunk2\n\n"]
        = [str "data: chunk1\n\n"]
    ∧ ∀ (k : Nat) (chunks : List Str),
        (syncPipeDelivered k chunks).length = min (k + 1) chunks.length :=
  ⟨rfl, rfl, syncPipeDelivered_length⟩

/-- C4: when the upstream dispatch fails before response headers, the client
receives status 502, but the response body is the fixed text `Proxy error`
(plus newline): it contains neither the request identifier nor the underlying
error text — both go only to the server's local log line
(`logging.go:186-191`, `server.go:164-169`); no retry is attempted. -/
theorem c4_bad_gateway_body_lacks_id_and_error :
    (Logging.handleProxyFailure (str "9f8a7b6c-5d4e-4f3a-a2b1-c0d9e8f7a6b5")
        (str "proxy request failed: connection refused")).1
      = ⟨502, str "Proxy error\n"⟩
    ∧ goContains (str "Proxy error\n")
        (str "9f8a7b6c-5d4e-4f3a-a2b1-c0d9e8f7a6b5") = false
    ∧ goContains (str "Proxy error\n") (str "connection refused") = false
    ∧ goContains (Logging.handleProxyFailure (str "9f8a7b6c-5d4e-4f3a-a2b1-c0d9e8f7a6b5")
        (str "proxy request failed: connection refused")).2
        (str "9f8a7b6c-5d4e-4f3a-a2b1-c0d9e8f7a6b5") = true
    ∧ goContains (Logging.handleProxyFailure (str "9f8a7b6c-5d4e-4f3a-a2b1-c0d9e8f7a6b5")
        (str "proxy request failed: connection refused")).2
        (str "connection refused") = true
    ∧ Logging.proxyUpstreamAttempts = 1 := by
  refine ⟨rfl, ?_, ?_, ?_, ?_, rfl⟩ <;> decide

/-- C9: the push is dispatched as `PUT {serverURL}/{requestID}/{request|response}`
with content type `application/octet-stream`, and a transport error or a
status other than 200/201 is recorded only as a local warning with no data
flowing back to the proxied response (`logging.go:418-437`,
`server.go:382-402`).  However, on a transport error the function returns
without draining or closing the tee pipe it was reading, so with the
synchronous `io.Pipe` tee an in-flight proxied stream stalls: after one
successful pipe read, a three-chunk response reaches the client only up to its
second chunk. -/
theorem c9_push_error_handling :
    (∀ serverURL requestID streamType : Str,
      Logging.mkLogPushRequest serverURL requestID streamType
        = ⟨str "PUT",
            serverURL ++ str "/" ++ requestID ++ str "/" ++ streamType,
            str "application/octet-stream"⟩)
    ∧ Logging.logPushWarns .transportError = true
    ∧ Logging.logPushWarns (.status 500) = true
    ∧ Logging.logPushWarns (.status 404) = true
    ∧ Logging.logPushWarns (.status 200) = false
    ∧ Logging.logPushWarns (.status 201) = false
    ∧ (∀ outcome, Logging.logPushClientData outcome = none)
    ∧ (∀ (respBody : List Str) (o1 o2 : Logging.LogPushResult),
        (Logging.proxyAndPushOutcome true respBody o1).1
          = (Logging.proxyAndPushOutcome true respBody o2).1)
    ∧ Logging.logPushDrainsPipeOnFailure = false
    ∧ syncPipeDelivered 1 [str "resp1", str "resp2", str "resp3"]
        = [str "resp1", str "resp2"] :=
  ⟨fun _ _ _ => rfl, rfl, rfl, rfl, rfl, rfl, fun _ => rfl,
    fun _ _ _ => rfl, rfl, by decide⟩

/-- C1: evaluation of the logging serializers at a gzip-encoded request: the
message pushed to the logging sink carries the wire (still-compressed) bytes
as its body — the tee copies the raw stream and no decompression stage exists
in `streamToLoggingServer` (`logging.go:360-416`) or `writeHTTPStream`
(`file_logger.go:83-166`) — and its serialized header block still contains the
`Content-Encoding` header, since the header filter skips only
`host`/`content-length`/`transfer-encoding`. -/
theorem c1_logged_message_keeps_wire_bytes :
    (str "Content-Encoding", str "gzip")
      ∈ (Logging.streamToLoggingServerRequestMessage
          ⟨str "POST", str "/api/test", [], str "HTTP/1.1", str "backend:80",
            [(str "Content-Encoding", [str "gzip"]),
             (str "Content-Type", [str "application/json"])]⟩
          (str "http://localhost:5601/api/test")
          (Logging.proxyLoggedRequestChunks true
            [str "GZIP-BLOCK-ONE", str "GZIP-BLOCK-TWO"]).flatten).headerPairs
    ∧ (Logging.streamToLoggingServerRequestMessage
          ⟨str "POST", str "/api/test", [], str "HTTP/1.1", str "backend:80",
            [(str "Content-Encoding", [str "gzip"]),
             (str "Content-Type", [str "application/json"])]⟩
          (str "http://localhost:5601/api/test")
          (Logging.proxyLoggedRequestChunks true
            [str "GZIP-BLOCK-ONE", str "GZIP-BLOCK-TWO"]).flatten).body
        = [str "GZIP-BLOCK-ONE", str "GZIP-BLOCK-TWO"].flatten
    ∧ (str "Content-Encoding", str "gzip")
      ∈ (FileLogger.writeHTTPStreamRequestMessage
          ⟨str "POST", str "/api/test", [], str "HTTP/1.1", str "backend:80",
            [(str "Content-Encoding", [str "gzip"]),
             (str "Content-Type", [str "application/json"])]⟩
          [] (str "GZIP-BLOCK-ONE" ++ str "GZIP-BLOCK-TWO")).headerPairs
    ∧ (FileLogger.writeHTTPStreamRequestMessage
          ⟨str "POST", str "/api/test", [], str "HTTP/1.1", str "backend:80",
            [(str "Content-Encoding", [str "gzip"]),
             (str "Content-Type", [str "application/json"])]⟩
          [] (str "GZIP-BLOCK-ONE" ++ str "GZIP-BLOCK-TWO")).body
        = str "GZIP-BLOCK-ONE" ++ str "GZIP-BLOCK-TWO" := by
  refine ⟨?_, ?_, ?_, ?_⟩ <;> decide

/-- C10: every header pair emitted into a logged request message by the
mux-based proxy's `streamToLoggingServer` (`logging.go:378-387`) or by the
file logger's `writeHTTPStream` (`file_logger.go:107-119`) has a name whose
lower-casing is neither `content-length` nor `transfer-encoding`, whatever
headers the inbound request carried: those two names are unconditionally
filtered out and never re-added. -/
theorem c10_logged_request_never_has_length_headers
    (req : GoRequest) (proxyPath bodyBytes : Str) (p : Str × Str)
    (hmem : p ∈ (Logging.streamToLoggingServerRequestMessage req proxyPath
          bodyBytes).headerPairs
        ∨ p ∈ (FileLogger.writeHTTPStreamRequestMessage req proxyPath
          bodyBytes).headerPairs) :
    goToLower p.1 ≠ str "content-length"
      ∧ goToLower p.1 ≠ str "transfer-encoding" := by
  have hcore : p ∈ (if req.host.length > 0 then [(str "Host", req.host)] else [])
        ++ emittedHeaderPairs req.header
        ++ (if proxyPath.length > 0 then [(str "X-Proxy-Path", proxyPath)] else []) := by
    rcases hmem with h | h
    · simpa [Logging.streamToLoggingServerRequestMessage] using h
    · simpa [FileLogger.writeHTTPStreamRequestMessage] using h
  rcases List.mem_append.mp hcore with hl | hx
  · rcases List.mem_append.mp hl with hh | hm
    · have hp : p = (str "Host", req.host) := by
        by_cases hc : req.host.length > 0
        · simpa [hc] using hh
        · rw [if_neg hc] at hh
          exact absurd hh (List.not_mem_nil _)
      have h1 : p.1 = str "Host" := by rw [hp]
      rw [h1]
      exact ⟨by decide, by decide⟩
    · obtain ⟨nv, _, hfst, hkeep⟩ := mem_emittedHeaderPairs hm
      rw [loggedHeaderKeep] at hkeep
      simp only [Bool.and_eq_true, decide_eq_true_eq] at hkeep
      exact ⟨hfst ▸ hkeep.1.2, hfst ▸ hkeep.2⟩
  · have hp : p = (str "X-Proxy-Path", proxyPath) := by
      by_cases hc : proxyPath.length > 0
      · simpa [hc] using hx
      · rw [if_neg hc] at hx
        exact absurd hx (List.not_mem_nil _)
    have h1 : p.1 = str "X-Proxy-Path" := by rw [hp]
    rw [h1]
    exact ⟨by decide, by decide⟩

/-- Witness for C10 at a concrete request whose inbound headers include
`Content-Type` (kept) next to `Content-Length` and `Transfer-Encoding`
(stripped). -/
theorem c10_witness :
    goToLower (str "Content-Type") ≠ str "content-length"
      ∧ goToLower (str "Content-Type") ≠ str "transfer-encoding" :=
  c10_logged_request_never_has_length_headers
    ⟨str "POST", str "/api/test", [], str "HTTP/1.1", str "backend:80",
      [(str "Content-Length", [str "42"]),
       (str "Transfer-Encoding", [str "chunked"]),
       (str "Content-Type", [str "application/json"])]⟩
    (str "http://localhost:5601/api/test") (str "BODY")
    (str "Content-Type", str "application/json")
    (Or.inl (by decide))

/-- C7 counterexample: the synthesized 404 body logged (and written to the
client) by `logUnknownRoute` is `404 page not found\n` (`logging.go:234`),
while the non-logged 404 path writes `custom 404 page\n`
(`http.Error(w, "custom 404 page", 404)`, `logging.go:217`) — the two bodies
differ, so the logged synthesized response is not identical to what the
non-logged 404 path writes. -/
theorem c7_counterexample_404_bodies_differ :
    Logging.unknownRouteLoggedBody ≠ Logging.unknownRouteNonLoggedBody
    ∧ (Logging.handleUnknownRoute true
        ⟨str "GET", str "/nope", [], str "HTTP/1.1", str "localhost:5601", []⟩
        (str "http://localhost:5601/nope") [] []).1.body
      ≠ (Logging.handleUnknownRoute false
        ⟨str "GET", str "/nope", [], str "HTTP/1.1", str "localhost:5601", []⟩
        (str "http://localhost:5601/nope") [] []).1.body := by
  refine ⟨?_, ?_⟩ <;> decide

/-- C7 (amended): with default logging enabled, an unmatched path produces
exactly one request-log push and one response-log push for the request, the
logged synthesized response uses protocol `HTTP/1.1` and status 404 with body
`404 page not found\n` — which is also what this branch writes to the client —
while the non-logged 404 path writes `custom 404 page\n`; with default logging
disabled, zero pushes occur and the client gets a bare 404
(`logging.go:195-248`). -/
theorem c7_unknown_route_logging (defaultLogging : Bool) (req : GoRequest)
    (proxyPath reqBody : Str) (wHeader : List (Str × List Str)) :
    (defaultLogging = true →
      (Logging.handleUnknownRoute defaultLogging req proxyPath reqBody wHeader).1
          = ⟨404, str "404 page not found\n"⟩
      ∧ (Logging.handleUnknownRoute defaultLogging req proxyPath reqBody wHeader).2
          = [⟨str "request",
                Logging.streamToLoggingServerRequestMessage req proxyPath reqBody⟩,
             ⟨str "response",
                Logging.streamToLoggingServerResponseMessage
                  ⟨str "HTTP/1.1", 404, wHeader⟩ (str "404 page not found\n")⟩]
      ∧ ((Logging.handleUnknownRoute defaultLogging req proxyPath reqBody
            wHeader).2.filter (fun p => p.streamType == str "request")).length = 1
      ∧ ((Logging.handleUnknownRoute defaultLogging req proxyPath reqBody
            wHeader).2.filter (fun p => p.streamType == str "response")).length = 1)
    ∧ (defaultLogging = false →
      (Logging.handleUnknownRoute defaultLogging req proxyPath reqBody wHeader).1
          = ⟨404, str "custom 404 page\n"⟩
      ∧ (Logging.handleUnknownRoute defaultLogging req proxyPath reqBody wHeader).2
          = []) := by
  cases defaultLogging with
  | false =>
    refine ⟨fun h => by simp at h, fun _ => ⟨?_, rfl⟩⟩
    rw [Logging.handleUnknownRoute, if_neg (by simp)]
    rfl
  | true =>
    refine ⟨fun _ => ⟨rfl, rfl, rfl, rfl⟩, fun h => by simp at h⟩

/-- Witness for C7 at a concrete unmatched request, both with default logging
enabled and disabled. -/
theorem c7_witness :
    (Logging.handleUnknownRoute true
        ⟨str "GET", str "/missing", [], str "HTTP/1.1", str "localhost:5601", []⟩
        (str "http://localhost:5601/missing") [] []).1
      = ⟨404, str "404 page not found\n"⟩
    ∧ (Logging.handleUnknownRoute false
        ⟨str "GET", str "/missing", [], str "HTTP/1.1", str "localhost:5601", []⟩
        (str "http://localhost:5601/missing") [] []).2 = [] :=
  ⟨(c7_unknown_route_logging true
      ⟨str "GET", str "/missing", [], str "HTTP/1.1", str "localhost:5601", []⟩
      (str "http://localhost:5601/missing") [] []).1 rfl |>.1,
   (c7_unknown_route_logging false
      ⟨str "GET", str "/missing", [], str "HTTP/1.1", str "localhost:5601", []⟩
      (str "http://localhost:5601/missing") [] []).2 rfl |>.2⟩

/-- C8: destination-URL construction appends the path remainder past the
matched prefix to the destination base and then the original query string
verbatim; the pattern `/api/` with destination `https://x/y/` maps request
`/api/v1/models?q=1` to `https://x/y/v1/models?q=1` in both the mux-based
construction (`logging.go:147-162`) and the legacy construction
(`server.go:54-69`, `server.go:146-162`); an empty raw query never appends a
`?`. -/
theorem c8_destination_url_construction :
    Logging.muxPathValue (str "/api/") (str "/api/v1/models") = str "v1/models"
    ∧ Logging.handlePatternRequestDestURL (str "https://x/y/")
        (Logging.muxPathValue (str "/api/") (str "/api/v1/models")) (str "q=1")
        = str "https://x/y/v1/models?q=1"
    ∧ Server.buildTargetURL (str "/api/v1/models") (str "/api/")
        (str "https://x/y/") (str "q=1") = some (str "https://x/y/v1/models?q=1")
    ∧ Server.buildTargetURL (str "/api/v1/models") (str "/api/")
        (str "https://x/y/") [] = some (str "https://x/y/v1/models")
    ∧ (∀ destination pathValue : Str,
        Logging.handlePatternRequestDestURL destination pathValue []
          = if pathValue.length > 0 then goJoinPath destination pathValue
            else destination)
    ∧ (∀ destination pathValue : Str, '?' ∉ destination → '?' ∉ pathValue →
        '?' ∉ Logging.handlePatternRequestDestURL destination pathValue [])
    ∧ (∀ u : GoURL, u.rawQuery = [] →
        goURLString u = u.scheme ++ str "://" ++ u.host ++ u.path)
    ∧ (∀ destination rest q : Str, 0 < rest.length → 0 < q.length →
        Logging.handlePatternRequestDestURL destination rest q
          = goTrimSuffix destination (str "/") ++ str "/" ++ rest
              ++ str "?" ++ q) := by
  refine ⟨by decide, by decide, by decide, by decide, ?_, ?_, ?_, ?_⟩
  · intro destination pathValue
    simp [Logging.handlePatternRequestDestURL]
  · intro destination pathValue hd hp hmem
    rw [Logging.handlePatternRequestDestURL] at hmem
    simp only [List.length_nil, gt_iff_lt, Nat.lt_irrefl, if_false] at hmem
    by_cases hl : pathValue.length > 0
    · rw [if_pos hl] at hmem
      rw [goJoinPath] at hmem
      rcases List.mem_append.mp hmem with hmem' | hq
      · rcases List.mem_append.mp hmem' with ht | hs
        · rw [goTrimSuffix] at ht
          by_cases hsuf : goEndsWith destination (str "/") = true
          · rw [if_pos hsuf] at ht
            exact hd (List.take_subset _ _ ht)
          · rw [if_neg hsuf] at ht
            exact hd ht
        · exact absurd hs (by decide)
      · exact hp hq
    · rw [if_neg hl] at hmem
      exact hd hmem
  · intro u hq
    rw [goURLString, hq]
    simp
  · intro destination rest q hrest hq
    rw [Logging.handlePatternRequestDestURL]
    simp only [gt_iff_lt, hrest, hq, if_pos]
    rw [goJoinPath]

/-- Witness for C8: the empty-query and nonempty-query shapes at the concrete
route of the claim. -/
theorem c8_witness :
    '?' ∉ Logging.handlePatternRequestDestURL (str "https://x/y/")
        (str "v1/models") []
    ∧ Logging.handlePatternRequestDestURL (str "https://x/y/")
        (str "v1/models") (str "q=1")
      = goTrimSuffix (str "https://x/y/") (str "/") ++ str "/"
          ++ str "v1/models" ++ str "?" ++ str "q=1" := by
  have h := c8_destination_url_construction
  exact ⟨h.2.2.2.2.2.1 (str "https://x/y/") (str "v1/models")
      (by decide) (by decide),
    h.2.2.2.2.2.2.2 (str "https://x/y/") (str "v1/models") (str "q=1")
      (by decide) (by decide)⟩

/-- C5 counterexample, on the legacy router (`server.go:38-51`): the pattern
`/exact` has no trailing separator, yet `findMatchingRoute` also matches the
distinct path `/exactly` (prefix comparison after trimming), and the bare
separator pattern `/` — claimed to match everything — matches nothing, because
its trimmed form has length 0 and the loop requires a strictly positive
improvement over the initial best length 0. -/
theorem c5_counterexample_legacy_matching :
    Server.findMatchingRoute
        [(str "/exact", ⟨str "/exact", str "https://d/", false⟩)]
        (str "/exactly")
      = some ⟨str "/exact", str "https://d/", false⟩
    ∧ Server.findMatchingRoute
        [(str "/", ⟨str "/", str "https://d/", false⟩)] (str "/anything")
      = none := by
  refine ⟨?_, ?_⟩ <;> decide

/-- C5 (amended): in the mux-based server (`logging.go:89-106` plus Go 1.22
`ServeMux` semantics) the claimed pattern semantics hold: a pattern ending in
the separator matches itself and exactly the paths extending it, a pattern
not ending in the separator matches only itself, the bare separator pattern
matches every path, and resolution picks a registered matching pattern that is
most specific — every other matching registered pattern matches a superset of
the paths it matches.  In the legacy server (`server.go:38-51`) matching is
instead by string prefix of the source with one trailing separator removed:
any returned route's trimmed source is a nonempty prefix of the path of
maximal length among the route table — so a pattern without a trailing
separator also matches paths that merely extend it, and the bare separator
pattern can never be returned. -/
theorem c5_route_matching_semantics :
    (∀ pattern path : Str, goEndsWith pattern (str "/") = true →
      (Logging.muxMatches (Logging.muxPatternSem pattern) path = true
        ↔ ∃ rest, path = pattern ++ rest))
    ∧ (∀ pattern path : Str, goEndsWith pattern (str "/") = false →
      (Logging.muxMatches (Logging.muxPatternSem pattern) path = true
        ↔ path = pattern))
    ∧ (∀ path : Str,
      Logging.muxMatches (Logging.muxPatternSem (str "/")) path = true
        ↔ ∃ rest, path = str "/" ++ rest)
    ∧ (∀ (ps : List Logging.MuxPattern) (path : Str) (m : Logging.MuxPattern),
      Logging.muxResolve ps path = some m →
        m ∈ ps ∧ Logging.muxMatches m path = true
          ∧ ∀ m' ∈ ps, Logging.muxMatches m' path = true →
              ∀ q, Logging.muxMatches m q = true →
                Logging.muxMatches m' q = true)
    ∧ (∀ (routes : List (Str × Server.Route)) (path : Str) (r : Server.Route),
      Server.findMatchingRoute routes path = some r →
        ∃ sp, (sp, r) ∈ routes
          ∧ goStartsWith path (goTrimSuffix sp (str "/")) = true
          ∧ 0 < (goTrimSuffix sp (str "/")).length
          ∧ ∀ sr ∈ routes,
              goStartsWith path (goTrimSuffix sr.1 (str "/")) = true →
                (goTrimSuffix sr.1 (str "/")).length
                  ≤ (goTrimSuffix sp (str "/")).length) := by
  refine ⟨?_, ?_, ?_, ?_, ?_⟩
  · intro pattern path hend
    rw [Logging.muxPatternSem, if_pos hend, Logging.muxMatches, goStartsWith_iff]
    constructor
    · intro ⟨t, ht⟩
      exact ⟨t, ht.symm⟩
    · intro ⟨t, ht⟩
      exact ⟨t, ht.symm⟩
  · intro pattern path hend
    rw [Logging.muxPatternSem, if_neg (by simp [hend]), Logging.muxMatches]
    simp
  · intro path
    rw [Logging.muxPatternSem, if_pos (by decide), Logging.muxMatches,
      goStartsWith_iff]
    constructor
    · intro ⟨t, ht⟩
      exact ⟨t, ht.symm⟩
    · intro ⟨t, ht⟩
      exact ⟨t, ht.symm⟩
  · intro ps path m hres
    obtain ⟨hmem, hmatch, hmax⟩ := Logging.muxResolve_sound hres
    exact ⟨hmem, hmatch, fun m' hm' hmm' =>
      Logging.muxMoreSpecific hmatch hmm' (hmax m' hm' hmm')⟩
  · intro routes path r h
    exact Server.findMatchingRoute_sound h

/-- Witness for C5 at concrete patterns and paths: the subtree pattern
`/api/` matches `/api/v1/chat`, the exact pattern `/exact` matches only
itself, the catch-all matches `/anything`, resolution between `/api/` and `/`
picks `/api/` whose match set is included in the catch-all's, and the legacy
router's result for a two-route table is a maximal nonempty prefix. -/
theorem c5_witness :
    (∃ rest, str "/api/v1/chat" = str "/api/" ++ rest)
    ∧ ((str "/exactly" : Str) = str "/exact" → False)
    ∧ (∃ rest, str "/anything" = str "/" ++ rest)
    ∧ (Logging.muxMatches (.subtree (str "/")) (str "/api/v1/chat") = true)
    ∧ (∃ sp, (sp, (⟨str "/api/", str "https://d1/", true⟩ : Server.Route))
          ∈ [(str "/", (⟨str "/", str "https://d0/", false⟩ : Server.Route)),
             (str "/api/", ⟨str "/api/", str "https://d1/", true⟩)]
        ∧ goStartsWith (str "/api/v1/chat") (goTrimSuffix sp (str "/")) = true
        ∧ 0 < (goTrimSuffix sp (str "/")).length) := by
  have h := c5_route_matching_semantics
  refine ⟨?_, ?_, ?_, ?_, ?_⟩
  · exact (h.1 (str "/api/") (str "/api/v1/chat") (by decide)).mp (by decide)
  · intro he
    exact absurd ((h.2.1 (str "/exact") (str "/exactly") (by decide)).mpr he)
      (by decide)
  · exact (h.2.2.1 (str "/anything")).mp (by decide)
  · have hr := h.2.2.2.1 [.subtree (str "/api/"), .subtree (str "/")]
        (str "/api/v1/chat") (.subtree (str "/api/")) (by decide)
    exact hr.2.2 (.subtree (str "/")) (by decide) (by decide)
        (str "/api/v1/chat") hr.2.1
  · obtain ⟨sp, hmem, hpre, hpos, _⟩ := h.2.2.2.2
        [(str "/", ⟨str "/", str "https://d0/", false⟩),
         (str "/api/", ⟨str "/api/", str "https://d1/", true⟩)]
        (str "/api/v1/chat") ⟨str "/api/", str "https://d1/", true⟩ (by decide)
    exact ⟨sp, hmem, hpre, hpos⟩

/-- C6 counterexample, on the legacy server (`server.go:21-35`): registering
two routes with the syntactically identical source `/x` does not fail — 
`NewProxyServer` returns normally and the second registration silently
overwrites the first in the `Routes` map. -/
theorem c6_counterexample_silent_overwrite :
    Server.newProxyServerRoutes
        [⟨str "/x", str "https://a/", false⟩, ⟨str "/x", str "https://b/", true⟩]
      = [(str "/x", ⟨str "/x", str "https://b/", true⟩)] := by
  decide

/-- C6 (amended): in the mux-based server, `setupPatterns`
(`logging.go:81-116`) fails before any traffic is served when two
syntactically identical patterns are registered — registration succeeds
exactly when the patterns are wildcard-free and pairwise distinct after the
`{path...}` transformation, and a duplicate produces the `ServeMux`
registration panic.  In the legacy server (`server.go:21-35`) no failure
occurs: the route registered last under a source silently becomes the table
entry for that source. -/
theorem c6_duplicate_pattern_registration :
    (∀ patterns : List Str,
      (∃ regs, Logging.setupPatternsRegs patterns = Except.ok regs)
        ↔ ((∀ p ∈ patterns, Logging.containsWildcard p = false)
            ∧ (patterns.map Logging.muxPatternOf).Nodup))
    ∧ Logging.setupPatternsRegs [str "/api/", str "/api/"]
        = Except.error (str "conflicting pattern")
    ∧ (∀ (rs : List Server.Route) (r : Server.Route),
        List.lookup r.source (Server.newProxyServerRoutes (rs ++ [r])) = some r) :=
  ⟨Logging.setupPatternsRegs_ok_iff, rfl, Server.newProxyServerRoutes_last⟩

/-- Witness for C6: distinct patterns register successfully, and in the
legacy table the route registered last under `/x` is the one found. -/
theorem c6_witness :
    (∃ regs, Logging.setupPatternsRegs [str "/api/", str "/v1/"]
        = Except.ok regs)
    ∧ List.lookup (str "/x")
        (Server.newProxyServerRoutes
          ([⟨str "/x", str "https://a/", false⟩]
            ++ [⟨str "/x", str "https://b/", true⟩]))
      = some ⟨str "/x", str "https://b/", true⟩ := by
  have h := c6_duplicate_pattern_registration
  exact ⟨(h.1 [str "/api/", str "/v1/"]).mpr ⟨by decide, by decide⟩,
    h.2.2 [⟨str "/x", str "https://a/", false⟩] ⟨str "/x", str "https://b/", true⟩⟩
